import Mathlib

/-!
Shallow embedding of the coalescing engine of `src/chaining/GraphQLQueryManager.ts`
(class `GraphQLQueryManager`) together with the request/predicate types of the
repository's shared type declarations.

External collaborators (the TypeORM query builder, the md5/JSON fingerprint, the
GraphQL selection-info parser and the `Formatter` utility module, none of which
are part of the embedded source file) are abstracted: the query builder is a
recorder of the where/andWhere/orWhere calls made against it, and the external
functions are universally quantified parameters of the operations that call them.

Promises are modelled by identifiers (`Nat`); the settlement of a request is
modelled by an explicit callback-invocation event so that callback counting
becomes a statement about lists.  The NodeJS immediate scheduler is modelled by
a pool of armed immediate handles: `setImmediate` arms a fresh handle and stores
it, `clearImmediate` disarms a handle; every handle still armed at the end of a
synchronous burst fires `_processQueue` once.
-/

/-- Named query parameters, as passed alongside a condition string
(`ObjectLiteral` in the source). Values are modelled as strings. -/
abbrev QueryParams : Type := List (String × String)

/-- A where expression attached to a queued request: either a
`LoaderWhereExpression` (a condition string plus named parameters, recognised
in the source by its `isLoaderWhereExpression` marker) or an opaque TypeORM
`Brackets` composite, identified here by a numeric token. -/
inductive ChainableWhereExpression where
  | loader (condition : String) (params : QueryParams)
  | brackets (b : Nat)
  deriving DecidableEq

/-- A where argument as received by `processQueryMeta`
(`string | Brackets` in the source). -/
inductive ChainableWhereArgument where
  | str (s : String)
  | brackets (b : Nat)
  deriving DecidableEq

/-- The nested field-selection tree produced by the GraphQL selection-info
parser: a mapping from field name to its children.  (Field arguments carry no
weight in the embedded manager code, which treats the tree opaquely.) -/
inductive GraphQLEntityFields where
  | node (children : List (String × GraphQLEntityFields))

/-- Modelled from the spec: the search-method selector `LoaderSearchMethod`
(its enum source file is not part of the embedded sources).  The spec lists the
wildcard-placement modes prefix-match, suffix-match, any-position and exact. -/
inductive LoaderSearchMethod where
  | startsWith
  | endsWith
  | anyPosition
  | exact
  deriving DecidableEq

/-- One entry of `SearchOptions.searchColumns`: a single column name or an
OR-grouped list of column names to be concatenated before comparison. -/
inductive SearchColumn where
  | single (c : String)
  | grouped (cs : List String)
  deriving DecidableEq

/-- The `SearchOptions` descriptor of one search-condition group. -/
structure SearchOptions where
  searchColumns : List SearchColumn
  searchText : String
  searchMethod : Option LoaderSearchMethod
  caseSensitive : Option Bool
  deriving DecidableEq

/-- The `QueryPredicates` attached to a queued request. -/
structure QueryPredicates where
  andWhere : List ChainableWhereExpression
  orWhere : List ChainableWhereExpression
  search : List SearchOptions
  order : List (String × String)
  selectFields : List String
  deriving DecidableEq

/-- A `ChainableQueueItem`: one pending load request.  The stored resolve and
reject continuations are modelled by identifiers; the selection tree is not
inspected by the queue machinery and is elided.  The entity is identified by
its name (the source reduces `Function | string` to a name string before use). -/
structure ChainableQueueItem where
  many : Bool
  key : String
  predicates : QueryPredicates
  entity : String
  resolveId : Nat
  rejectId : Nat
  deriving DecidableEq

/-- The `QueryMeta` record returned by `processQueryMeta`.  `item` is the cached
promise (by identifier) when `found` is true. -/
structure QueryMeta where
  key : String
  fields : GraphQLEntityFields
  found : Bool
  item : Option Nat

/-- The cache map `Map<string, Promise<any>>`, as an association list with the
uniqueness discipline a JS `Map` maintains through `set`. -/
abbrev CacheMap : Type := List (String × Nat)

/-- `Map.prototype.has`. -/
def mapHas (m : CacheMap) (k : String) : Bool :=
  m.any (fun p => p.1 == k)

/-- `Map.prototype.get`. -/
def mapGet (m : CacheMap) (k : String) : Option Nat :=
  (m.find? (fun p => p.1 == k)).map Prod.snd

/-- `Map.prototype.set`: overwrite an existing key, otherwise append. -/
def mapSet (m : CacheMap) (k : String) (v : Nat) : CacheMap :=
  if mapHas m k then m.map (fun p => if p.1 == k then (k, v) else p)
  else m ++ [(k, v)]

/-- `Map.prototype.delete`. -/
def mapDelete (m : CacheMap) (k : String) : CacheMap :=
  m.filter (fun p => p.1 != k)

/-- The mutable instance state of a `GraphQLQueryManager`, together with the
scheduler bookkeeping needed to observe immediates: `immediate` is the stored
handle `this._immediate`, `armed` lists every immediate handle that has been
scheduled and neither cleared nor fired (each will fire `_processQueue` once),
and `nextImm` supplies fresh handles. -/
structure ManagerState where
  queue : List ChainableQueueItem
  cache : CacheMap
  immediate : Option Nat
  armed : List Nat
  nextImm : Nat

/-- A manager fresh out of the constructor: empty queue, empty cache, no
scheduled immediate. -/
def initialManagerState : ManagerState :=
  { queue := [], cache := [], immediate := none, armed := [], nextImm := 0 }

/-- `setImmediate` wrapped by `_setImmediate`: arm a fresh handle and store it
in `this._immediate`, without clearing the previously stored handle. -/
def _setImmediate (st : ManagerState) : ManagerState :=
  { st with
    immediate := some st.nextImm
    armed := st.armed ++ [st.nextImm]
    nextImm := st.nextImm + 1 }

/-- `clearImmediate h`: disarm the handle `h` (a no-op when `h` is not armed). -/
def clearImmediateHandle (st : ManagerState) (h : Nat) : ManagerState :=
  { st with armed := st.armed.filter (fun a => a != h) }

/-- The immediate-cancelling step of `processQueryMeta` (lines 98 to 102 of the
source): when a handle is stored in `this._immediate`, clear it. -/
def clearPendingImmediate (st : ManagerState) : ManagerState :=
  match st.immediate with
  | some h => clearImmediateHandle st h
  | none => st

/-- `GraphQLQueryManager.addQueueItem`: push the item onto the live queue and
call `_setImmediate`. -/
def addQueueItem (st : ManagerState) (item : ChainableQueueItem) : ManagerState :=
  _setImmediate { st with queue := st.queue ++ [item] }

/-- `GraphQLQueryManager.addCacheItem`: store a promise under a cache key. -/
def addCacheItem (st : ManagerState) (key : String) (value : Nat) : ManagerState :=
  { st with cache := mapSet st.cache key value }

/-- `GraphQLQueryManager.processQueryMeta`.  The external collaborators are
parameters: `graphqlFields` is the selection-info parser and `md5Json` computes
the hex md5 digest of the JSON encoding of the pair of the where-condition list
and the parsed field tree.  On a cache hit the cached promise is returned with
`found = true` (and an empty `key`); on a miss the computed key is returned and
any pending immediate is cleared. -/
def processQueryMeta {Info : Type}
    (graphqlFields : Info → GraphQLEntityFields)
    (md5Json : List ChainableWhereArgument → GraphQLEntityFields → String)
    (st : ManagerState) (info : Info)
    (whereArgs : List ChainableWhereArgument) : QueryMeta × ManagerState :=
  let fields := graphqlFields info
  let key := md5Json whereArgs fields
  if mapHas st.cache key then
    ({ key := "", fields := fields, found := true, item := mapGet st.cache key }, st)
  else
    ({ key := key, fields := fields, found := false, item := none },
      clearPendingImmediate st)

/-- The queue drain at the start of `_processQueue`
(`this._queue.splice(0, this._queue.length)`): return the drained snapshot and
the state with an empty live queue. -/
def drainQueue (st : ManagerState) : List ChainableQueueItem × ManagerState :=
  (st.queue, { st with queue := [] })

/-- A callback invocation on a queued request: exactly what the source does
with `item.resolve` or `item.reject`. -/
inductive CallbackCall where
  | resolveCall (item : ChainableQueueItem) (value : Nat)
  | rejectCall (item : ChainableQueueItem) (err : Nat)

/-- The catch branch of `_processQueue`: when the transaction rejects with `e`,
walk the drained queue in order, rejecting each request and deleting its cache
entry. -/
def processQueueCatch (e : Nat) (queue : List ChainableQueueItem)
    (cache : CacheMap) : List CallbackCall × CacheMap :=
  queue.foldl
    (fun acc q => (acc.1 ++ [CallbackCall.rejectCall q e], mapDelete acc.2 q.key))
    ([], cache)

/-- One condition as TypeORM receives it from `_breakDownWhereExpression`:
either a raw condition string or an opaque `Brackets` composite. -/
inductive WhereClause where
  | str (s : String)
  | brk (b : Nat)
  deriving DecidableEq

/-- One conditional-clause call recorded against the query builder. -/
inductive QBWhereCall where
  | whereBase (w : WhereClause) (p : Option QueryParams)
  | andWhereCall (w : WhereClause) (p : Option QueryParams)
  | orWhereCall (w : WhereClause) (p : Option QueryParams)
  deriving DecidableEq

/-- The external TypeORM `SelectQueryBuilder`, modelled as the sequence of
where-family calls made against it. -/
structure SelectQueryBuilder where
  whereCalls : List QBWhereCall
  deriving DecidableEq

/-- `qb.where(w, p)`. -/
def SelectQueryBuilder.whereCall (qb : SelectQueryBuilder) (w : WhereClause)
    (p : Option QueryParams) : SelectQueryBuilder :=
  { whereCalls := qb.whereCalls ++ [QBWhereCall.whereBase w p] }

/-- `qb.andWhere(w, p)`. -/
def SelectQueryBuilder.andWhere (qb : SelectQueryBuilder) (w : WhereClause)
    (p : Option QueryParams) : SelectQueryBuilder :=
  { whereCalls := qb.whereCalls ++ [QBWhereCall.andWhereCall w p] }

/-- `qb.orWhere(w, p)`. -/
def SelectQueryBuilder.orWhere (qb : SelectQueryBuilder) (w : WhereClause)
    (p : Option QueryParams) : SelectQueryBuilder :=
  { whereCalls := qb.whereCalls ++ [QBWhereCall.orWhereCall w p] }

/-- `GraphQLQueryManager._breakDownWhereExpression`: a loader where expression
is split into its condition string and parameters; anything else is passed
through as a `Brackets` with no parameters. -/
def _breakDownWhereExpression :
    ChainableWhereExpression → WhereClause × Option QueryParams
  | ChainableWhereExpression.loader condition params =>
      (WhereClause.str condition, some params)
  | ChainableWhereExpression.brackets b => (WhereClause.brk b, none)

/-- `GraphQLQueryManager._addAndWhereConditions`.  The source mutates the array
it is handed: `conditions.shift()` removes the head, which seeds the initial
`where` call, and the remaining conditions are conjoined with `andWhere` in
order.  The returned pair is the resulting builder and the final contents of
the caller's array. -/
def _addAndWhereConditions (qb : SelectQueryBuilder)
    (conditions : List ChainableWhereExpression) :
    SelectQueryBuilder × List ChainableWhereExpression :=
  match conditions with
  | [] => (qb, [])
  | initialWhere :: rest =>
    let bd := _breakDownWhereExpression initialWhere
    let qb := qb.whereCall bd.1 bd.2
    (rest.foldl
      (fun qb condition =>
        let bd := _breakDownWhereExpression condition
        qb.andWhere bd.1 bd.2) qb,
     rest)

/-- `GraphQLQueryManager._addOrWhereConditions`: each condition is disjoined
with `orWhere` in order. -/
def _addOrWhereConditions (qb : SelectQueryBuilder)
    (conditions : List ChainableWhereExpression) : SelectQueryBuilder :=
  conditions.foldl
    (fun qb condition =>
      let bd := _breakDownWhereExpression condition
      qb.orWhere bd.1 bd.2) qb

/-- The query/params record produced by `_formatSearchConditions` for one
search-condition group. -/
structure FormattedSearch where
  query : String
  params : QueryParams
  deriving DecidableEq

/-- `GraphQLQueryManager._formatSearchConditions`.  The `Formatter`
collaborator is abstracted: `formatSearchColumns` yields the per-column LIKE
expressions of a group and `getSearchMethodMapping` places the wildcards around
the search text for a method.  Each group resolves its method to the given one
or, when absent, to the manager's `_defaultLoaderSearchMethod`, joins the LIKE
expressions with ` OR ` inside parentheses, and binds the mapped text under the
parameter name `searchText`. -/
def _formatSearchConditions
    (defaultLoaderSearchMethod : LoaderSearchMethod)
    (formatSearchColumns : List SearchColumn → String → Option Bool → List String)
    (getSearchMethodMapping : LoaderSearchMethod → String → String)
    (conditions : List SearchOptions) (tableAlias : String) : List FormattedSearch :=
  conditions.map (fun c =>
    let method := c.searchMethod.getD defaultLoaderSearchMethod
    let likeQueryStrings := formatSearchColumns c.searchColumns tableAlias c.caseSensitive
    let searchTextParam := getSearchMethodMapping method c.searchText
    { query := "(" ++ String.intercalate " OR " likeQueryStrings ++ ")",
      params := [("searchText", searchTextParam)] })

/-- `GraphQLQueryManager._addSearchConditions`: conjoin each formatted search
group onto the builder with `andWhere`. -/
def _addSearchConditions
    (defaultLoaderSearchMethod : LoaderSearchMethod)
    (formatSearchColumns : List SearchColumn → String → Option Bool → List String)
    (getSearchMethodMapping : LoaderSearchMethod → String → String)
    (qb : SelectQueryBuilder) (tableAlias : String)
    (searchConditions : List SearchOptions) : SelectQueryBuilder :=
  (_formatSearchConditions defaultLoaderSearchMethod formatSearchColumns
      getSearchMethodMapping searchConditions tableAlias).foldl
    (fun qb f => qb.andWhere (WhereClause.str f.query) (some f.params)) qb

/-- The predicate-processing phase of `_resolveQueueItem`: the and-conditions,
or-conditions and search conditions of the request are applied to its fresh
query builder in that order.  Because `_addAndWhereConditions` shifts the
array it receives, the request's predicate record is returned as it stands
after query construction. -/
def buildPredicateQuery
    (defaultLoaderSearchMethod : LoaderSearchMethod)
    (formatSearchColumns : List SearchColumn → String → Option Bool → List String)
    (getSearchMethodMapping : LoaderSearchMethod → String → String)
    (qb : SelectQueryBuilder) (tableAlias : String) (p : QueryPredicates) :
    SelectQueryBuilder × QueryPredicates :=
  let andResult := _addAndWhereConditions qb p.andWhere
  let qb2 := _addOrWhereConditions andResult.1 p.orWhere
  let qb3 := _addSearchConditions defaultLoaderSearchMethod formatSearchColumns
    getSearchMethodMapping qb2 tableAlias p.search
  (qb3, { p with andWhere := andResult.2 })

/-- The settlement of one request's own query. -/
inductive QueryOutcome where
  | success (value : Nat)
  | failure (err : Nat)

/-- The callback invocations of `promise.then(item.resolve, item.reject)` in
`_resolveQueueItem`: a fulfilled query invokes the stored resolve callback, a
rejected one the stored reject callback. -/
def _resolveQueueItemCalls (item : ChainableQueueItem) :
    QueryOutcome → List CallbackCall
  | QueryOutcome.success v => [CallbackCall.resolveCall item v]
  | QueryOutcome.failure e => [CallbackCall.rejectCall item e]

/-- The settlement tail of `_resolveQueueItem`,
`promise.then(item.resolve, item.reject).finally(() => cache.delete(item.key))`:
the callback invocations together with the unconditional deletion of the
request's cache entry. -/
def _resolveQueueItemSettle (item : ChainableQueueItem) (o : QueryOutcome)
    (cache : CacheMap) : List CallbackCall × CacheMap :=
  (_resolveQueueItemCalls item o, mapDelete cache item.key)

/-- How one flush can settle, following the control flow of `_processQueue`:
the per-item promises created by the callback's `queue.map` are discarded
without being awaited, so they settle independently of the transaction call
itself.  Three paths are reachable: the transaction rejects before running its
callback, so no per-item query was dispatched (`earlyFailure`); the
transaction completes and every dispatched query settles on its own
(`completed`); or the transaction rejects even though its callback already
dispatched the per-item queries, whose floating promises settle with their own
outcomes as well (`lateFailure`, e.g. a connection or commit error while the
unawaited queries are in flight). -/
inductive TransactionOutcome where
  | earlyFailure (err : Nat)
  | completed (outcomes : List QueryOutcome)
  | lateFailure (outcomes : List QueryOutcome) (err : Nat)

/-- The stored-callback invocations a flush produces for each drained request
(collected per request, in one serialisation of their occurrence): a
transaction rejection preceding the callback leaves only the catch branch's
rejection; a completed transaction leaves only each request's own settlement
through `_resolveQueueItem`; a transaction rejection with the per-item queries
already dispatched produces both the request's own settlement and the catch
branch's rejection, since `_processQueue` never awaits the per-item promises. -/
def flushSettlements (tx : TransactionOutcome)
    (queue : List ChainableQueueItem) :
    List (ChainableQueueItem × List CallbackCall) :=
  match tx with
  | TransactionOutcome.earlyFailure e =>
      queue.map (fun q => (q, [CallbackCall.rejectCall q e]))
  | TransactionOutcome.completed outcomes =>
      (queue.zip outcomes).map (fun p => (p.1, _resolveQueueItemCalls p.1 p.2))
  | TransactionOutcome.lateFailure outcomes e =>
      (queue.zip outcomes).map (fun p =>
        (p.1, _resolveQueueItemCalls p.1 p.2 ++ [CallbackCall.rejectCall p.1 e]))

/-- Does a callback call invoke one of the two stored callbacks of `q`? -/
def settlesItem (q : ChainableQueueItem) : CallbackCall → Prop
  | CallbackCall.resolveCall q' _ => q' = q
  | CallbackCall.rejectCall q' _ => q' = q

/-- Scheduler sanity: the armed immediates are exactly the stored handle when
one is stored, and none otherwise.  This holds initially and is preserved by
the enqueue flow the loader actually performs (a `processQueryMeta` cache miss
followed by `addQueueItem`). -/
def goodSched (st : ManagerState) : Prop :=
  st.armed = (match st.immediate with | some h => [h] | none => [])

/-- Deleting a key removes it: `has` is false for the deleted key. -/
theorem mapHas_mapDelete_self (m : CacheMap) (k : String) :
    mapHas (mapDelete m k) k = false := by
  rw [Bool.eq_false_iff]
  intro h
  rw [mapHas, List.any_eq_true] at h
  obtain ⟨p, hp, hpk⟩ := h
  have h2 := (List.mem_filter.mp hp).2
  rw [bne_iff_ne] at h2
  exact h2 (by simpa using hpk)

/-- Deletion never adds keys: a key present after a delete was present before. -/
theorem mapHas_of_mapDelete (m : CacheMap) (k' k : String)
    (h : mapHas (mapDelete m k') k = true) : mapHas m k = true := by
  rw [mapHas, List.any_eq_true] at h ⊢
  obtain ⟨p, hp, hpk⟩ := h
  exact ⟨p, (List.mem_filter.mp hp).1, hpk⟩

/-- A key absent from the map stays absent under any further deletion. -/
theorem mapHas_mapDelete_false (m : CacheMap) (k' k : String)
    (h : mapHas m k = false) : mapHas (mapDelete m k') k = false := by
  by_contra hc
  rw [Bool.not_eq_false] at hc
  rw [mapHas_of_mapDelete m k' k hc] at h
  exact Bool.noConfusion h

/-- A key absent from the map stays absent under a fold of deletions. -/
theorem mapHas_foldl_mapDelete_of_false (queue : List ChainableQueueItem)
    (cache : CacheMap) (k : String) (h : mapHas cache k = false) :
    mapHas (queue.foldl (fun c q => mapDelete c q.key) cache) k = false := by
  induction queue generalizing cache with
  | nil => exact h
  | cons a rest ih =>
    exact ih (mapDelete cache a.key) (mapHas_mapDelete_false cache a.key k h)

/-- After folding a deletion for every queued item over the cache, no queued
item's key remains. -/
theorem mapHas_foldl_mapDelete (queue : List ChainableQueueItem)
    (cache : CacheMap) (q : ChainableQueueItem) (hq : q ∈ queue) :
    mapHas (queue.foldl (fun c q => mapDelete c q.key) cache) q.key = false := by
  induction queue generalizing cache with
  | nil => cases hq
  | cons a rest ih =>
    rcases List.mem_cons.mp hq with h | h
    · subst h
      exact mapHas_foldl_mapDelete_of_false rest (mapDelete cache q.key) q.key
        (mapHas_mapDelete_self cache q.key)
    · exact ih (mapDelete cache a.key) h

/-- Characterisation of the catch branch of `_processQueue`: it emits one
rejection per drained request in queue order and folds a cache deletion per
request. -/
theorem processQueueCatch_spec (e : Nat) (queue : List ChainableQueueItem)
    (cache : CacheMap) :
    processQueueCatch e queue cache =
      (queue.map (fun q => CallbackCall.rejectCall q e),
       queue.foldl (fun c q => mapDelete c q.key) cache) := by
  have go : ∀ (l : List ChainableQueueItem) (acc : List CallbackCall × CacheMap),
      l.foldl (fun acc q =>
          (acc.1 ++ [CallbackCall.rejectCall q e], mapDelete acc.2 q.key)) acc =
        (acc.1 ++ l.map (fun q => CallbackCall.rejectCall q e),
         l.foldl (fun c q => mapDelete c q.key) acc.2) := by
    intro l
    induction l with
    | nil => intro acc; simp
    | cons a rest ih => intro acc; simp [ih]
  simpa using go queue ([], cache)

/-- Folding `andWhere` calls over a condition list appends one `andWhere`
record per condition, in order. -/
theorem andWhere_foldl_calls (l : List ChainableWhereExpression)
    (qb : SelectQueryBuilder) :
    (l.foldl (fun qb condition =>
        let bd := _breakDownWhereExpression condition
        qb.andWhere bd.1 bd.2) qb).whereCalls =
      qb.whereCalls ++ l.map (fun c =>
        QBWhereCall.andWhereCall (_breakDownWhereExpression c).1
          (_breakDownWhereExpression c).2) := by
  induction l generalizing qb with
  | nil => simp
  | cons c rest ih =>
    rw [List.foldl_cons, ih]
    simp [SelectQueryBuilder.andWhere]

/-- Folding `orWhere` calls over a condition list appends one `orWhere`
record per condition, in order. -/
theorem orWhere_foldl_calls (l : List ChainableWhereExpression)
    (qb : SelectQueryBuilder) :
    (_addOrWhereConditions qb l).whereCalls =
      qb.whereCalls ++ l.map (fun c =>
        QBWhereCall.orWhereCall (_breakDownWhereExpression c).1
          (_breakDownWhereExpression c).2) := by
  induction l generalizing qb with
  | nil => simp [_addOrWhereConditions]
  | cons c rest ih =>
    have h1 : _addOrWhereConditions qb (c :: rest) =
        _addOrWhereConditions
          (qb.orWhere (_breakDownWhereExpression c).1
            (_breakDownWhereExpression c).2) rest := rfl
    rw [h1, ih]
    simp [SelectQueryBuilder.orWhere]

/-- Folding search `andWhere` calls appends one `andWhere` record per
formatted search group, in order. -/
theorem searchFold_calls (l : List FormattedSearch) (qb : SelectQueryBuilder) :
    (l.foldl (fun qb f =>
        qb.andWhere (WhereClause.str f.query) (some f.params)) qb).whereCalls =
      qb.whereCalls ++ l.map (fun f =>
        QBWhereCall.andWhereCall (WhereClause.str f.query) (some f.params)) := by
  induction l generalizing qb with
  | nil => simp
  | cons f rest ih =>
    rw [List.foldl_cons, ih]
    simp [SelectQueryBuilder.andWhere]

/-- An empty predicate record, as the facade produces before any condition is
added. -/
def emptyPredicates : QueryPredicates :=
  { andWhere := [], orWhere := [], search := [], order := [], selectFields := [] }

/-- A concrete queued request used to instantiate the theorems. -/
def sampleItem0 : ChainableQueueItem :=
  { many := true, key := "a", predicates := emptyPredicates,
    entity := "User", resolveId := 0, rejectId := 1 }

/-- A second concrete queued request. -/
def sampleItem1 : ChainableQueueItem :=
  { many := false, key := "b", predicates := emptyPredicates,
    entity := "User", resolveId := 2, rejectId := 3 }

/-- A concrete selection tree. -/
def sampleFields : GraphQLEntityFields := GraphQLEntityFields.node []

/-- A concrete stand-in for the selection-info parser. -/
def constFieldsOf : Unit → GraphQLEntityFields := fun _ => sampleFields

/-- A concrete stand-in for the md5-of-JSON fingerprint. -/
def constHash : List ChainableWhereArgument → GraphQLEntityFields → String :=
  fun _ _ => "k0"

/-- A manager state whose cache already holds a promise under the key the
concrete fingerprint computes. -/
def hitState : ManagerState :=
  { initialManagerState with cache := [("k0", 7)] }

/-- Claim C1: whenever the fingerprint computed by `processQueryMeta` (the md5
of the JSON encoding of the where-condition list and the parsed field tree) is
already a key of the cache map, the returned `QueryMeta` has `found = true` and
its `item` is exactly the promise the cache stores for that fingerprint. -/
theorem c1_processQueryMeta_cache_hit {Info : Type}
    (graphqlFields : Info → GraphQLEntityFields)
    (md5Json : List ChainableWhereArgument → GraphQLEntityFields → String)
    (st : ManagerState) (info : Info)
    (whereArgs : List ChainableWhereArgument)
    (h : mapHas st.cache (md5Json whereArgs (graphqlFields info)) = true) :
    (processQueryMeta graphqlFields md5Json st info whereArgs).1.found = true ∧
    (processQueryMeta graphqlFields md5Json st info whereArgs).1.item =
      mapGet st.cache (md5Json whereArgs (graphqlFields info)) := by
  simp [processQueryMeta, h]

/-- Witness for claim C1 at a concrete cache-hit state. -/
theorem c1_processQueryMeta_cache_hit_witness :
    mapHas hitState.cache (constHash [] (constFieldsOf ())) = true ∧
    ((processQueryMeta constFieldsOf constHash hitState () []).1.found = true ∧
     (processQueryMeta constFieldsOf constHash hitState () []).1.item =
       mapGet hitState.cache (constHash [] (constFieldsOf ()))) :=
  ⟨by decide,
   c1_processQueryMeta_cache_hit constFieldsOf constHash hitState () [] (by decide)⟩

/-- Claim C2 counterexample: starting from a fresh manager, enqueue
`sampleItem0`, so that a flush (immediate handle 0) is scheduled and stored;
then enqueue `sampleItem1` through `addQueueItem`.  The claim says the
previously scheduled flush is cancelled, leaving one flush for the burst; in
the code `addQueueItem` merely overwrites `this._immediate` with a fresh
immediate, so handle 0 stays armed and the burst has armed two flush
executions. -/
theorem c2_addQueueItem_counterexample :
    (addQueueItem initialManagerState sampleItem0).immediate = some 0 ∧
    0 ∈ (addQueueItem initialManagerState sampleItem0).armed ∧
    0 ∈ (addQueueItem (addQueueItem initialManagerState sampleItem0)
          sampleItem1).armed ∧
    (addQueueItem (addQueueItem initialManagerState sampleItem0)
        sampleItem1).armed.length = 2 := by
  decide

/-- Claim C2 (amended): `addQueueItem` appends the request to the live queue
and schedules a fresh flush immediate, overwriting the stored handle without
cancelling the previously scheduled one; the cancellation happens in the
`processQueryMeta` cache-miss step that precedes every enqueue in the loader's
flow, so an enqueue performed as clear-pending-immediate-then-add from a state
whose armed immediates match the stored handle leaves exactly one armed flush
for the whole burst. -/
theorem c2_enqueue_single_armed_flush (st : ManagerState)
    (item : ChainableQueueItem) (h : goodSched st) :
    (addQueueItem st item).queue = st.queue ++ [item] ∧
    (addQueueItem st item).armed = st.armed ++ [st.nextImm] ∧
    (addQueueItem (clearPendingImmediate st) item).queue = st.queue ++ [item] ∧
    (addQueueItem (clearPendingImmediate st) item).armed = [st.nextImm] ∧
    goodSched (addQueueItem (clearPendingImmediate st) item) := by
  unfold goodSched at h
  cases him : st.immediate with
  | none =>
    rw [him] at h
    refine ⟨rfl, rfl, ?_, ?_, ?_⟩ <;>
      simp [addQueueItem, _setImmediate, clearPendingImmediate, him, goodSched, h]
  | some h0 =>
    rw [him] at h
    refine ⟨rfl, rfl, ?_, ?_, ?_⟩ <;>
      simp [addQueueItem, _setImmediate, clearPendingImmediate,
        clearImmediateHandle, him, goodSched, h]

/-- Witness for the amended claim C2 at a concrete state. -/
theorem c2_enqueue_single_armed_flush_witness :
    (addQueueItem (clearPendingImmediate initialManagerState) sampleItem0).armed
      = [0] :=
  (c2_enqueue_single_armed_flush initialManagerState sampleItem0 rfl).2.2.2.1

/-- Claim C3: a flush drains the whole live queue atomically at its start: the
drained snapshot is exactly the queue as it stood, the live queue is empty
afterwards, and a request enqueued while the flush executes lands in the fresh
queue alone, to be drained only by the next flush. -/
theorem c3_flush_drains_atomically (st : ManagerState)
    (item : ChainableQueueItem) :
    (drainQueue st).1 = st.queue ∧
    (drainQueue st).2.queue = [] ∧
    (addQueueItem (drainQueue st).2 item).queue = [item] ∧
    (drainQueue (addQueueItem (drainQueue st).2 item)).1 = [item] := by
  refine ⟨rfl, rfl, ?_, ?_⟩ <;> simp [drainQueue, addQueueItem, _setImmediate]

/-- Claim C4: when the flush transaction rejects with an error, every drained
request is rejected with that same error and its cache entry is deleted, so
none of the drained keys remains in the cache map. -/
theorem c4_transaction_failure_rejects_all (e : Nat)
    (queue : List ChainableQueueItem) (cache : CacheMap)
    (q : ChainableQueueItem) (hq : q ∈ queue) :
    CallbackCall.rejectCall q e ∈ (processQueueCatch e queue cache).1 ∧
    mapHas (processQueueCatch e queue cache).2 q.key = false := by
  rw [processQueueCatch_spec]
  exact ⟨List.mem_map.mpr ⟨q, hq, rfl⟩, mapHas_foldl_mapDelete queue cache q hq⟩

/-- Witness for claim C4 at a concrete failing flush. -/
theorem c4_transaction_failure_rejects_all_witness :
    sampleItem0 ∈ [sampleItem0, sampleItem1] ∧
    (CallbackCall.rejectCall sampleItem0 5 ∈
        (processQueueCatch 5 [sampleItem0, sampleItem1] [("a", 3), ("b", 4)]).1 ∧
      mapHas (processQueueCatch 5 [sampleItem0, sampleItem1]
          [("a", 3), ("b", 4)]).2 sampleItem0.key = false) :=
  ⟨List.mem_cons_self sampleItem0 [sampleItem1],
   c4_transaction_failure_rejects_all 5 [sampleItem0, sampleItem1]
     [("a", 3), ("b", 4)] sampleItem0
     (List.mem_cons_self sampleItem0 [sampleItem1])⟩

/-- Claim C5 counterexample: a flush of the single request `sampleItem0` in
which the transaction rejects with error 9 after its callback has dispatched
the request's query, and that floating, never-awaited query fulfils with
value 5.  The request's own settlement invokes its stored resolve callback and
the catch branch then invokes its stored reject callback: two stored-callback
invocations, refuting that exactly one callback is invoked exactly once on
every settlement path. -/
theorem c5_exactly_once_counterexample :
    flushSettlements
        (TransactionOutcome.lateFailure [QueryOutcome.success 5] 9)
        [sampleItem0] =
      [(sampleItem0, [CallbackCall.resolveCall sampleItem0 5,
                      CallbackCall.rejectCall sampleItem0 9])] ∧
    ¬ ∀ entry ∈ flushSettlements
          (TransactionOutcome.lateFailure [QueryOutcome.success 5] 9)
          [sampleItem0], entry.2.length = 1 := by
  refine ⟨rfl, ?_⟩
  intro h
  have h2 := h (sampleItem0, [CallbackCall.resolveCall sampleItem0 5,
      CallbackCall.rejectCall sampleItem0 9]) (List.mem_singleton.mpr rfl)
  exact Nat.noConfusion (Nat.succ.inj h2)

/-- Claim C5 (amended): every request entering a flush has only its own two
stored callbacks invoked, and the invocation is exactly one on the path where
the transaction rejects before dispatching the per-item queries and on the
path where the transaction completes (resolve on the query's success, reject
on its failure); but because `_processQueue` discards the promises created by
its `queue.map` without awaiting them, on the path where the transaction
rejects after dispatch every drained request receives its own settlement and
additionally the catch branch's rejection: two invocations. -/
theorem c5_callback_invocations (tx : TransactionOutcome)
    (queue : List ChainableQueueItem)
    (hlen : match tx with
      | TransactionOutcome.earlyFailure _ => True
      | TransactionOutcome.completed outcomes =>
          outcomes.length = queue.length
      | TransactionOutcome.lateFailure outcomes _ =>
          outcomes.length = queue.length) :
    (flushSettlements tx queue).map Prod.fst = queue ∧
    ∀ entry ∈ flushSettlements tx queue,
      (∀ c ∈ entry.2, settlesItem entry.1 c) ∧
      entry.2.length = (match tx with
        | TransactionOutcome.lateFailure _ _ => 2
        | _ => 1) := by
  cases tx with
  | earlyFailure e =>
    have hfst : (Prod.fst ∘ fun q : ChainableQueueItem =>
        (q, [CallbackCall.rejectCall q e])) = id := rfl
    refine ⟨by rw [flushSettlements, List.map_map, hfst, List.map_id], ?_⟩
    intro entry he
    obtain ⟨q, _, rfl⟩ := List.mem_map.mp he
    refine ⟨?_, rfl⟩
    intro c hc
    rw [List.mem_singleton.mp hc]
    exact rfl
  | completed outs =>
    constructor
    · rw [flushSettlements, List.map_map]
      have : (Prod.fst ∘ fun p : ChainableQueueItem × QueryOutcome =>
          (p.1, _resolveQueueItemCalls p.1 p.2)) = Prod.fst := rfl
      rw [this]
      exact List.map_fst_zip queue outs (le_of_eq hlen.symm)
    · intro entry he
      rw [flushSettlements] at he
      obtain ⟨p, _, rfl⟩ := List.mem_map.mp he
      cases ho : p.2 with
      | success v =>
        refine ⟨?_, by simp [_resolveQueueItemCalls, ho]⟩
        intro c hc
        simp only [_resolveQueueItemCalls, ho] at hc
        rw [List.mem_singleton.mp hc]
        exact rfl
      | failure e =>
        refine ⟨?_, by simp [_resolveQueueItemCalls, ho]⟩
        intro c hc
        simp only [_resolveQueueItemCalls, ho] at hc
        rw [List.mem_singleton.mp hc]
        exact rfl
  | lateFailure outs e =>
    constructor
    · rw [flushSettlements, List.map_map]
      have : (Prod.fst ∘ fun p : ChainableQueueItem × QueryOutcome =>
          (p.1, _resolveQueueItemCalls p.1 p.2 ++
            [CallbackCall.rejectCall p.1 e])) = Prod.fst := rfl
      rw [this]
      exact List.map_fst_zip queue outs (le_of_eq hlen.symm)
    · intro entry he
      rw [flushSettlements] at he
      obtain ⟨p, _, rfl⟩ := List.mem_map.mp he
      constructor
      · intro c hc
        rcases List.mem_append.mp hc with hc1 | hc2
        · cases ho : p.2 with
          | success v =>
            rw [ho] at hc1
            simp only [_resolveQueueItemCalls] at hc1
            rw [List.mem_singleton.mp hc1]
            exact rfl
          | failure e2 =>
            rw [ho] at hc1
            simp only [_resolveQueueItemCalls] at hc1
            rw [List.mem_singleton.mp hc1]
            exact rfl
        · rw [List.mem_singleton.mp hc2]
          exact rfl
      · cases ho : p.2 <;> simp [_resolveQueueItemCalls, ho]

/-- Witness for the amended claim C5 at a concrete completed flush of one
request. -/
theorem c5_callback_invocations_witness :
    (flushSettlements (TransactionOutcome.completed [QueryOutcome.success 5])
        [sampleItem0]).map Prod.fst = [sampleItem0] :=
  (c5_callback_invocations
    (TransactionOutcome.completed [QueryOutcome.success 5]) [sampleItem0] rfl).1

/-- Claim C6: with a non-empty AND-condition list the first condition is
applied through the base `where` call and each later one through `andWhere` in
list order, every OR condition is applied through `orWhere` in list order, and
an empty AND list leaves the builder untouched. -/
theorem c6_condition_builder_calls :
    (∀ qb : SelectQueryBuilder, (_addAndWhereConditions qb []).1 = qb) ∧
    (∀ (qb : SelectQueryBuilder) (c : ChainableWhereExpression)
        (rest : List ChainableWhereExpression),
      (_addAndWhereConditions qb (c :: rest)).1.whereCalls =
        qb.whereCalls ++
          QBWhereCall.whereBase (_breakDownWhereExpression c).1
            (_breakDownWhereExpression c).2 ::
          rest.map (fun x =>
            QBWhereCall.andWhereCall (_breakDownWhereExpression x).1
              (_breakDownWhereExpression x).2)) ∧
    (∀ (qb : SelectQueryBuilder) (l : List ChainableWhereExpression),
      (_addOrWhereConditions qb l).whereCalls =
        qb.whereCalls ++ l.map (fun x =>
          QBWhereCall.orWhereCall (_breakDownWhereExpression x).1
            (_breakDownWhereExpression x).2)) := by
  refine ⟨fun qb => rfl, ?_, fun qb l => orWhere_foldl_calls l qb⟩
  intro qb c rest
  have h1 : (_addAndWhereConditions qb (c :: rest)).1 =
      rest.foldl (fun qb condition =>
          let bd := _breakDownWhereExpression condition
          qb.andWhere bd.1 bd.2)
        (qb.whereCall (_breakDownWhereExpression c).1
          (_breakDownWhereExpression c).2) := rfl
  rw [h1, andWhere_foldl_calls]
  simp [SelectQueryBuilder.whereCall]

/-- Claim C7: each search-condition group compiles to one clause built from
the formatter's per-column LIKE expressions joined by " OR " and wrapped in
parentheses, with the search text mapped through the group's search method
(or the manager's default when the group gives none) and bound under the
parameter name `searchText`; the groups' clauses are conjoined with `andWhere`
in order, so distinct groups are ANDed together. -/
theorem c7_search_groups_compiled (dm : LoaderSearchMethod)
    (formatSearchColumns : List SearchColumn → String → Option Bool → List String)
    (getSearchMethodMapping : LoaderSearchMethod → String → String)
    (qb : SelectQueryBuilder) (tableAlias : String)
    (conds : List SearchOptions) :
    (_addSearchConditions dm formatSearchColumns getSearchMethodMapping qb
        tableAlias conds).whereCalls =
      qb.whereCalls ++ conds.map (fun c =>
        QBWhereCall.andWhereCall
          (WhereClause.str ("(" ++ String.intercalate " OR "
            (formatSearchColumns c.searchColumns tableAlias c.caseSensitive)
            ++ ")"))
          (some [("searchText",
            getSearchMethodMapping (c.searchMethod.getD dm) c.searchText)])) := by
  rw [_addSearchConditions, searchFold_calls, _formatSearchConditions,
    List.map_map]
  rfl

/-- Claim C8: inside a flush whose transaction completes, a request's cache
entry (under its stored key) is deleted as soon as its own query settles,
whether it resolved or rejected. -/
theorem c8_cache_deleted_on_settlement (item : ChainableQueueItem)
    (o : QueryOutcome) (cache : CacheMap) :
    mapHas (_resolveQueueItemSettle item o cache).2 item.key = false :=
  mapHas_mapDelete_self cache item.key

/-- Claim C9: building a request's query mutates the request's own predicate
state: the shift inside `_addAndWhereConditions` leaves the request's
`andWhere` array equal to the tail of its original contents, while the
`orWhere` and `search` lists come through unchanged. -/
theorem c9_predicate_shift_mutation (dm : LoaderSearchMethod)
    (formatSearchColumns : List SearchColumn → String → Option Bool → List String)
    (getSearchMethodMapping : LoaderSearchMethod → String → String)
    (qb : SelectQueryBuilder) (tableAlias : String) (p : QueryPredicates) :
    (buildPredicateQuery dm formatSearchColumns getSearchMethodMapping qb
        tableAlias p).2.andWhere = p.andWhere.tail ∧
    (buildPredicateQuery dm formatSearchColumns getSearchMethodMapping qb
        tableAlias p).2.orWhere = p.orWhere ∧
    (buildPredicateQuery dm formatSearchColumns getSearchMethodMapping qb
        tableAlias p).2.search = p.search := by
  cases hp : p.andWhere with
  | nil => exact ⟨by simp [buildPredicateQuery, _addAndWhereConditions, hp], rfl, rfl⟩
  | cons c rest => exact ⟨by simp [buildPredicateQuery, _addAndWhereConditions, hp], rfl, rfl⟩

/-- Claim C10: every compiled search group binds its text under the single
shared parameter name `searchText`, so several groups in one request all
reference the identical named parameter rather than independent bindings. -/
theorem c10_shared_searchText_parameter (dm : LoaderSearchMethod)
    (formatSearchColumns : List SearchColumn → String → Option Bool → List String)
    (getSearchMethodMapping : LoaderSearchMethod → String → String)
    (conds : List SearchOptions) (tableAlias : String) :
    (_formatSearchConditions dm formatSearchColumns getSearchMethodMapping
        conds tableAlias).map (fun f => f.params.map Prod.fst) =
      conds.map (fun _ => ["searchText"]) := by
  rw [_formatSearchConditions, List.map_map]
  rfl
